import Mathlib

/-!
Shallow embedding of the knowledge-graph builder (knowledge_graph.py):
the Python literal values handled by the payload decoder, the graph state
written by the ingestion transactions, the ingestion operations themselves,
and the two lookup queries.  Theorems at the end of the file settle the
specification's claims against these definitions.
-/

/-- Python literal values produced by the permissive literal decoder
(ast.literal_eval), restricted to the forms occurring in the dataset
payloads: strings, integers, booleans, None, lists and dicts. -/
inductive PyVal where
  | pstr (s : String)
  | pint (n : Int)
  | pbool (b : Bool)
  | pnone
  | plist (l : List PyVal)
  | pdict (d : List (PyVal × PyVal))

/-- Python truthiness of a literal value, as tested by a bare `if field`. -/
def PyVal.truthy : PyVal → Bool
  | .pstr s => !s.data.isEmpty
  | .pint n => n != 0
  | .pbool b => b
  | .pnone => false
  | .plist l => !l.isEmpty
  | .pdict d => !d.isEmpty

/-- Comparison of a dict key against a string key, as Python `==` behaves for
the string keys the builder looks up (a non-string literal key never equals a
string). -/
def keyIs (k : PyVal) (s : String) : Bool :=
  match k with
  | .pstr t => t == s
  | _ => false

/-- Model of `dict.get(key, default)` for dicts built by the literal decoder:
with duplicate keys the last value wins, as in a Python dict display. -/
def dictGetStr (d : List (PyVal × PyVal)) (k : String) (dflt : PyVal) : PyVal :=
  match (d.filter (fun p => keyIs p.1 k)).getLast? with
  | some p => p.2
  | none => dflt

/-- Model of `key in dict` for a string key. -/
def hasKeyStr (d : List (PyVal × PyVal)) (k : String) : Bool :=
  d.any (fun p => keyIs p.1 k)

/-- Model of `isinstance(v, list)`. -/
def PyVal.isList : PyVal → Bool
  | .plist _ => true
  | _ => false

/-- Whitespace characters removed by Python `str.strip()` (ASCII range). -/
def isPyWs (c : Char) : Bool :=
  c = ' ' || c = '\t' || c = '\n' || c = '\r' || c = '\x0b' || c = '\x0c'

/-- Model of Python `str.strip()`. -/
def pstrip (s : String) : String :=
  ⟨((s.data.dropWhile isPyWs).reverse.dropWhile isPyWs).reverse⟩

def lowerChar (c : Char) : Char :=
  if 'A' ≤ c && c ≤ 'Z' then Char.ofNat (c.toNat + 32) else c

def upperChar (c : Char) : Char :=
  if 'a' ≤ c && c ≤ 'z' then Char.ofNat (c.toNat - 32) else c

/-- ASCII model of the store's `toLower`, applied by the lookup queries to
both the stored attribute and the query argument. -/
def strLower (s : String) : String := ⟨s.data.map lowerChar⟩

/-- ASCII model of Python `str.upper()`, used by the writer to build
relationship-type names from a node label. -/
def strUpper (s : String) : String := ⟨s.data.map upperChar⟩

/-- Skip whitespace between tokens of a Python literal. -/
def skipWs : List Char → List Char
  | [] => []
  | c :: cs =>
    if c = ' ' || c = '\t' || c = '\n' || c = '\r' || c = '\x0c' then skipWs cs
    else c :: cs

/-- Parse the body of a quoted string literal with quote character `q`,
handling the common escape sequences; a raw newline inside the literal is a
syntax error, as in Python. -/
def parseStrAux (q : Char) : Nat → List Char → List Char → Option (String × List Char)
  | 0, _, _ => none
  | _ + 1, _, [] => none
  | fuel + 1, acc, c :: cs =>
    if c = q then some (⟨acc.reverse⟩, cs)
    else if c = '\n' then none
    else if c = '\\' then
      match cs with
      | [] => none
      | e :: cs2 =>
        if e = 'n' then parseStrAux q fuel ('\n' :: acc) cs2
        else if e = 't' then parseStrAux q fuel ('\t' :: acc) cs2
        else if e = 'r' then parseStrAux q fuel ('\r' :: acc) cs2
        else if e = '\\' then parseStrAux q fuel ('\\' :: acc) cs2
        else if e = '"' then parseStrAux q fuel ('"' :: acc) cs2
        else if e = Char.ofNat 39 then parseStrAux q fuel (Char.ofNat 39 :: acc) cs2
        else parseStrAux q fuel (e :: '\\' :: acc) cs2
    else parseStrAux q fuel (c :: acc) cs

def digitsToNat : List Char → Nat → Nat
  | [], n => n
  | c :: cs, n => digitsToNat cs (n * 10 + (c.toNat - 48))

/-- Parse a decimal integer literal with an optional sign.  Floats, complex
numbers and non-decimal bases are rejected; the callers treat any rejection
as a decode failure, which the builder handles identically to a successfully
decoded non-list value (no children are created either way). -/
def parseIntLit (cs : List Char) : Option (PyVal × List Char) :=
  let signed : Bool × List Char :=
    match cs with
    | '-' :: r => (true, r)
    | '+' :: r => (false, r)
    | _ => (false, cs)
  let ds := signed.2.takeWhile (fun c => c.isDigit)
  let rest := signed.2.dropWhile (fun c => c.isDigit)
  if ds.isEmpty then none
  else
    match rest with
    | '.' :: _ => none
    | 'e' :: _ => none
    | 'E' :: _ => none
    | 'j' :: _ => none
    | 'J' :: _ => none
    | 'x' :: _ => none
    | 'X' :: _ => none
    | 'o' :: _ => none
    | 'b' :: _ => none
    | '_' :: _ => none
    | _ =>
      let n : Int := Int.ofNat (digitsToNat ds 0)
      some (.pint (if signed.1 then -n else n), rest)

mutual

/-- Recursive-descent model of the permissive literal decoder on the literal
forms used by the payloads: quoted strings, decimal integers, True/False/None,
lists and dicts.  The fuel argument bounds recursion depth. -/
def parseVal : Nat → List Char → Option (PyVal × List Char)
  | 0, _ => none
  | fuel + 1, cs =>
    match skipWs cs with
    | [] => none
    | c :: rest =>
      if c = '"' || c = Char.ofNat 39 then
        (parseStrAux c fuel [] rest).map (fun p => (.pstr p.1, p.2))
      else if c = '[' then
        (parseListItems fuel rest).map (fun p => (.plist p.1, p.2))
      else if c = Char.ofNat 123 then
        (parseDictItems fuel rest).map (fun p => (.pdict p.1, p.2))
      else if c = '-' || c = '+' || c.isDigit then
        parseIntLit (c :: rest)
      else if c.isAlpha then
        let word : List Char := (c :: rest).takeWhile (fun ch => ch.isAlpha)
        let after : List Char := (c :: rest).dropWhile (fun ch => ch.isAlpha)
        if word = "True".data then some (.pbool true, after)
        else if word = "False".data then some (.pbool false, after)
        else if word = "None".data then some (.pnone, after)
        else none
      else none

/-- Items of a list literal after the opening bracket, allowing a trailing
comma. -/
def parseListItems : Nat → List Char → Option (List PyVal × List Char)
  | 0, _ => none
  | fuel + 1, cs =>
    match skipWs cs with
    | ']' :: r => some ([], r)
    | cs2 =>
      match parseVal fuel cs2 with
      | none => none
      | some (v, r) =>
        match skipWs r with
        | ',' :: r2 => (parseListItems fuel r2).map (fun p => (v :: p.1, p.2))
        | ']' :: r2 => some ([v], r2)
        | _ => none

/-- Entries of a dict literal after the opening brace, allowing a trailing
comma. -/
def parseDictItems : Nat → List Char → Option (List (PyVal × PyVal) × List Char)
  | 0, _ => none
  | fuel + 1, cs =>
    match skipWs cs with
    | [] => none
    | c :: r =>
      if c = Char.ofNat 125 then some ([], r)
      else
        match parseVal fuel (c :: r) with
        | none => none
        | some (k, r1) =>
          match skipWs r1 with
          | ':' :: r2 =>
            match parseVal fuel r2 with
            | none => none
            | some (v, r3) =>
              match skipWs r3 with
              | ',' :: r4 => (parseDictItems fuel r4).map (fun p => ((k, v) :: p.1, p.2))
              | c2 :: r4 => if c2 = Char.ofNat 125 then some ([(k, v)], r4) else none
              | [] => none
          | _ => none

end

/-- Model of the guarded `ast.literal_eval(text)` call: `some v` when the
whole text decodes to a literal value, `none` on any decode failure (the
caller's except-branch). -/
def literalEval (s : String) : Option PyVal :=
  match parseVal (s.data.length * 2 + 8) s.data with
  | some (v, rest) => if (skipWs rest).isEmpty then some v else none
  | none => none


/-- A TripPlan node with the properties set by the CREATE statement of
_create_trip_plan. -/
structure TripPlanNode where
  nid : Nat
  org : String
  dest : String
  days : Int
  visiting_city_number : Int
  date : String
  people_number : Int
  local_constraint : String
  budget : Int
  query : String
  level : String
  annotated_plan : String
  reference_information : String
deriving DecidableEq

/-- A DayPlan node; the day and current_city properties hold whatever the
decoded dict supplied. -/
structure DayPlanNode where
  nid : Nat
  day : PyVal
  current_city : PyVal

/-- A node created by _create_related_node: label is one of Transportation,
Meal, Attraction, Accommodation at the call sites, and meal_type is set only
for Meal nodes. -/
structure ActivityNode where
  nid : Nat
  label : String
  value : String
  meal_type : Option String
deriving DecidableEq

/-- A ReferenceInfo node. -/
structure RefInfoNode where
  nid : Nat
  description : PyVal
  content : PyVal

/-- A relationship between two internally-identified nodes. -/
structure NEdge where
  src : Nat
  rel : String
  dst : Nat
deriving DecidableEq

/-- A relationship from an internally-identified node to a City node, which
is identified by its name. -/
structure CEdge where
  src : Nat
  rel : String
  city : String
deriving DecidableEq

/-- The visible state of the graph store.  nextId is the allocator for the
store's internal node ids returned by id(...). -/
structure GraphState where
  nextId : Nat
  cities : List String
  tripPlans : List TripPlanNode
  dayPlans : List DayPlanNode
  activities : List ActivityNode
  refInfos : List RefInfoNode
  nodeEdges : List NEdge
  cityEdges : List CEdge

def emptyState : GraphState := ⟨0, [], [], [], [], [], [], []⟩

/-- MERGE of a relationship pattern: create the edge only when absent. -/
def mergeNEdge (es : List NEdge) (e : NEdge) : List NEdge :=
  if e ∈ es then es else es ++ [e]

/-- MERGE of a node-to-City relationship pattern. -/
def mergeCEdge (es : List CEdge) (e : CEdge) : List CEdge :=
  if e ∈ es then es else es ++ [e]

/-- _merge_city: MERGE (c:City with the given name). -/
def mergeCity (name : String) (g : GraphState) : GraphState :=
  if name ∈ g.cities then g else { g with cities := g.cities ++ [name] }

/-- Evaluation of the guard `if field and field.strip() != "-"` on a decoded
value: `none` models the AttributeError raised (aborting the transaction)
when a truthy non-string value reaches .strip(); `some (some s)` means the
guard passed with string value s; `some none` means the guard failed and the
field is skipped. -/
def presentStr (v : PyVal) : Option (Option String) :=
  if v.truthy then
    match v with
    | .pstr s => if pstrip s = "-" then some none else some (some s)
    | _ => none
  else some none

/-- _create_related_node: CREATE a fresh node carrying the given label and
value (plus the optional meal_type), and MERGE a relationship whose type
name is interpolated from the label exactly as the source f-string
HAS_{label.upper()} does. -/
def createRelatedNode (dpId : Nat) (value : String) (label : String)
    (meal_type : Option String) (g : GraphState) : GraphState :=
  let nId := g.nextId
  { g with
    nextId := nId + 1
    activities := g.activities ++ [⟨nId, label, value, meal_type⟩]
    nodeEdges := mergeNEdge g.nodeEdges ⟨dpId, "HAS_" ++ strUpper label, nId⟩ }

/-- Create the related node when the guard passed, otherwise leave the state
unchanged. -/
def applyAct (dpId : Nat) (v : Option String) (label : String)
    (meal_type : Option String) (g : GraphState) : GraphState :=
  match v with
  | some s => createRelatedNode dpId s label meal_type g
  | none => g

/-- One activity field of _create_day_plan: evaluate the guard (which can
raise) and create the related node when it passes. -/
def actStep (dpId : Nat) (v : PyVal) (label : String) (meal_type : Option String)
    (g : GraphState) : Option GraphState :=
  (presentStr v).map (fun s => applyAct dpId s label meal_type g)

/-- The current_city branch of _create_day_plan: MERGE the City node and the
IN_CITY relationship, using the raw (unstripped) name. -/
def inCity (dpId : Nat) (name : String) (g : GraphState) : GraphState :=
  let g1 := mergeCity name g
  { g1 with cityEdges := mergeCEdge g1.cityEdges ⟨dpId, "IN_CITY", name⟩ }

/-- _create_day_plan: CREATE the DayPlan node and its HAS_DAY_PLAN
relationship, then the optional IN_CITY branch, then the six activity
fields in source order. -/
def createDayPlan (tpId : Nat) (entries : List (PyVal × PyVal))
    (g : GraphState) : Option GraphState := do
  let day := dictGetStr entries "days" .pnone
  let cc := dictGetStr entries "current_city" (.pstr "")
  let dpId := g.nextId
  let g1 : GraphState :=
    { g with
      nextId := dpId + 1
      dayPlans := g.dayPlans ++ [⟨dpId, day, cc⟩]
      nodeEdges := mergeNEdge g.nodeEdges ⟨tpId, "HAS_DAY_PLAN", dpId⟩ }
  let g2 ← (presentStr cc).map (fun s =>
    match s with
    | some name => inCity dpId name g1
    | none => g1)
  let g3 ← actStep dpId (dictGetStr entries "transportation" (.pstr "")) "Transportation" none g2
  let g4 ← actStep dpId (dictGetStr entries "breakfast" (.pstr "")) "Meal" (some "Breakfast") g3
  let g5 ← actStep dpId (dictGetStr entries "lunch" (.pstr "")) "Meal" (some "Lunch") g4
  let g6 ← actStep dpId (dictGetStr entries "dinner" (.pstr "")) "Meal" (some "Dinner") g5
  let g7 ← actStep dpId (dictGetStr entries "attraction" (.pstr "")) "Attraction" none g6
  actStep dpId (dictGetStr entries "accommodation" (.pstr "")) "Accommodation" none g7

/-- The annotated-plan loop of _create_trip_plan: only dict-shaped non-empty
entries are handed to _create_day_plan; a raised error aborts the whole
transaction. -/
def processDayPlans (tpId : Nat) : List PyVal → GraphState → Option GraphState
  | [], g => some g
  | v :: rest, g =>
    match v with
    | .pdict entries =>
      if entries.isEmpty then processDayPlans tpId rest g
      else
        match createDayPlan tpId entries g with
        | none => none
        | some g1 => processDayPlans tpId rest g1
    | _ => processDayPlans tpId rest g

/-- _create_reference_info: CREATE the ReferenceInfo node and MERGE its
HAS_REFERENCE relationship. -/
def createReferenceInfo (tpId : Nat) (ref : List (PyVal × PyVal))
    (g : GraphState) : GraphState :=
  let description := dictGetStr ref "Description" (.pstr "")
  let content := dictGetStr ref "Content" (.pstr "")
  let riId := g.nextId
  { g with
    nextId := riId + 1
    refInfos := g.refInfos ++ [⟨riId, description, content⟩]
    nodeEdges := mergeNEdge g.nodeEdges ⟨tpId, "HAS_REFERENCE", riId⟩ }

/-- The reference-information loop of _create_trip_plan: only dict-shaped
entries carrying both a Description and a Content key are kept. -/
def processRefs (tpId : Nat) : List PyVal → GraphState → GraphState
  | [], g => g
  | v :: rest, g =>
    match v with
    | .pdict entries =>
      if hasKeyStr entries "Description" && hasKeyStr entries "Content" then
        processRefs tpId rest (createReferenceInfo tpId entries g)
      else processRefs tpId rest g
    | _ => processRefs tpId rest g

/-- The decoded sequence a nested payload contributes children from: empty
on a decode failure (the except branch sets the variable to an empty list)
and also for a successfully decoded non-list value (the isinstance check
then skips the loop). -/
def decodedList (s : String) : List PyVal :=
  match literalEval s with
  | some (.plist l) => l
  | _ => []

/-- _create_trip_plan: one transaction that CREATEs the TripPlan node,
MATCHes the two City nodes and MERGEs the ORIGIN/DESTINATION relationships
(a failed MATCH silently creates nothing, as Cypher row semantics do), then
decodes annotated_plan and reference_information and creates the children.
Returns none when the transaction raises and is rolled back. -/
def createTripPlan (org dest : String) (days visiting_city_number : Int)
    (date : String) (people_number : Int) (local_constraint : String)
    (budget : Int) (query level annotated_plan reference_information : String)
    (g : GraphState) : Option GraphState :=
  let tpId := g.nextId
  let g1 : GraphState :=
    { g with
      nextId := tpId + 1
      tripPlans := g.tripPlans ++ [⟨tpId, org, dest, days, visiting_city_number,
        date, people_number, local_constraint, budget, query, level,
        annotated_plan, reference_information⟩] }
  let g2 : GraphState :=
    if org ∈ g1.cities ∧ dest ∈ g1.cities then
      { g1 with cityEdges :=
          (mergeCEdge (mergeCEdge g1.cityEdges ⟨tpId, "ORIGIN", org⟩)
            ⟨tpId, "DESTINATION", dest⟩) }
    else g1
  match processDayPlans tpId (decodedList annotated_plan) g2 with
  | none => none
  | some g3 => some (processRefs tpId (decodedList reference_information) g3)

/-- A raw dataset record; a `none` field models a field missing from the
record mapping. -/
structure RawRecord where
  org : Option String
  dest : Option String
  days : Option Int
  visiting_city_number : Option Int
  date : Option String
  people_number : Option Int
  local_constraint : Option String
  budget : Option Int
  query : Option String
  level : Option String
  annotated_plan : Option String
  reference_information : Option String

def orgD (r : RawRecord) : String := r.org.getD "Unknown"
def destD (r : RawRecord) : String := r.dest.getD "Unknown"
def daysD (r : RawRecord) : Int := r.days.getD 0
def vcnD (r : RawRecord) : Int := r.visiting_city_number.getD 0
def dateD (r : RawRecord) : String := r.date.getD "[]"
def pnD (r : RawRecord) : Int := r.people_number.getD 0
def lcD (r : RawRecord) : String := r.local_constraint.getD "\x7b\x7d"
def budgetD (r : RawRecord) : Int := r.budget.getD 0
def queryD (r : RawRecord) : String := r.query.getD ""
def levelD (r : RawRecord) : String := r.level.getD "unknown"
def apD (r : RawRecord) : String := r.annotated_plan.getD "[]"
def riD (r : RawRecord) : String := r.reference_information.getD "[]"

/-- session.write_transaction: the transaction's effect commits when the
function returns normally (some), and is rolled back — leaving the graph
exactly as before the transaction — when it raises (none). -/
def runTx (tx : GraphState → Option GraphState) (g : GraphState) : GraphState :=
  (tx g).getD g

/-- The third write transaction issued by process_record. -/
def tripTx (r : RawRecord) : GraphState → Option GraphState :=
  createTripPlan (orgD r) (destD r) (daysD r) (vcnD r) (dateD r) (pnD r)
    (lcD r) (budgetD r) (queryD r) (levelD r) (apD r) (riD r)

/-- process_record: three separate write transactions — a city merge for the
origin name, a city merge for the destination name, then the trip-plan
transaction. -/
def processRecord (r : RawRecord) (g : GraphState) : GraphState :=
  let g1 := runTx (fun s => some (mergeCity (orgD r) s)) g
  let g2 := runTx (fun s => some (mergeCity (destD r) s)) g1
  runTx (tripTx r) g2

/-- The projection of TripPlan attributes returned by both lookup queries. -/
structure TripSummary where
  org : String
  dest : String
  days : Int
  date : String
  people_number : Int
  budget : Int
  query_text : String
  level : String
  annotated_plan : String
  reference_information : String
deriving DecidableEq

def summaryOf (t : TripPlanNode) : TripSummary :=
  ⟨t.org, t.dest, t.days, t.date, t.people_number, t.budget, t.query, t.level,
    t.annotated_plan, t.reference_information⟩

/-- _get_trip_plans: toLower equality on the org and dest attributes stored
on TripPlan. -/
def fetchTripPlans (g : GraphState) (origin destination : String) : List TripSummary :=
  (g.tripPlans.filter (fun t =>
    strLower t.org == strLower origin && strLower t.dest == strLower destination)).map
    summaryOf

/-- _get_trip_plans_from_origin: toLower equality on the org attribute only. -/
def fetchTripPlansFromOrigin (g : GraphState) (origin : String) : List TripSummary :=
  (g.tripPlans.filter (fun t => strLower t.org == strLower origin)).map summaryOf

/-! Invariant: relationships that point at activity nodes carry one of the
four closed relationship types. -/

/-- The closed enumeration of relationship types from DayPlan to activity
nodes. -/
def actRels : List String :=
  ["HAS_TRANSPORTATION", "HAS_MEAL", "HAS_ATTRACTION", "HAS_ACCOMMODATION"]

/-- The labels handed to _create_related_node at its call sites. -/
def actLabels : List String :=
  ["Transportation", "Meal", "Attraction", "Accommodation"]

/-- Store invariant: activity-node ids are below the allocator, relationship
targets are below the allocator, and every relationship that points at an
ActivityNode carries one of the four closed types. -/
def StoreInv (g : GraphState) : Prop :=
  (∀ a ∈ g.activities, a.nid < g.nextId) ∧
  (∀ e ∈ g.nodeEdges, e.dst < g.nextId) ∧
  (∀ e ∈ g.nodeEdges, ∀ a ∈ g.activities, e.dst = a.nid → e.rel ∈ actRels)

/-- The label, value and meal tag of each activity node in creation order,
used to compare activity sets across states. -/
def actFacts (g : GraphState) : List (String × String × Option String) :=
  g.activities.map (fun a => (a.label, a.value, a.meal_type))

/-- The guard the code actually tests on an activity field holding a string:
the raw value is non-empty and its stripped form is not a single dash. -/
def codePresent (s : String) : Bool := !s.data.isEmpty && !(pstrip s == "-")

/-- Modelled from the spec sentence for the sentinel-filtering claim: a field
is present only if non-empty after trimming and not equal to a single
dash. -/
def specPresentTrimmed (s : String) : Bool :=
  !(pstrip s).data.isEmpty && !(s == "-")

/-- A day-plan dict carrying the six activity fields as strings. -/
def actDict (t b l d a ac : String) : List (PyVal × PyVal) :=
  [(.pstr "transportation", .pstr t), (.pstr "breakfast", .pstr b),
   (.pstr "lunch", .pstr l), (.pstr "dinner", .pstr d),
   (.pstr "attraction", .pstr a), (.pstr "accommodation", .pstr ac)]

/-- The contribution of one activity field to the activity facts. -/
def actOpt (c : Bool) (lbl s : String) (mt : Option String) :
    List (String × String × Option String) :=
  if c then [(lbl, s, mt)] else []

/-- How many activity nodes carry a given label, value and meal tag. -/
def actCount (g : GraphState) (lbl v : String) (mt : Option String) : Nat :=
  (actFacts g).count (lbl, v, mt)

/-! Concrete fixtures used by witnesses and counterexamples. -/

/-- A record whose annotated plan decodes to a day entry carrying a truthy
integer transportation value, which makes the trip-plan transaction raise
inside step 4. -/
def recFail : RawRecord :=
  ⟨some "Paris", some "Rome", none, none, none, none, none, none, none, none,
    some "[\x7b\x22transportation\x22: 5\x7d]", none⟩

/-- A record with every field missing. -/
def recNone : RawRecord :=
  ⟨none, none, none, none, none, none, none, none, none, none, none, none⟩

/-- A record whose annotated plan is not valid literal text. -/
def recPlanOops : RawRecord :=
  ⟨some "A", some "B", none, none, none, none, none, none, none, none,
    some "oops", none⟩

/-- A record whose two payloads decode to non-list values: an integer and a
dict. -/
def recNonList : RawRecord :=
  ⟨some "A", some "B", none, none, none, none, none, none, none, none,
    some "7", some "\x7b\x7d"⟩

/-- A record producing one day plan with one breakfast activity. -/
def recCafe : RawRecord :=
  ⟨some "A", some "B", none, none, none, none, none, none, none, none,
    some "[\x7b\x22breakfast\x22: \x22Cafe\x22\x7d]", none⟩

/-- A one-trip graph used by the lookup witnesses. -/
def gNY : GraphState :=
  ⟨1, ["New York", "Chicago"],
    [⟨0, "New York", "Chicago", 3, 0, "[]", 0, "\x7b\x7d", 0, "", "unknown", "[]", "[]"⟩],
    [], [], [], [],
    [⟨0, "ORIGIN", "New York"⟩, ⟨0, "DESTINATION", "Chicago"⟩]⟩

/-! Component lemmas about the primitive write operations. -/

theorem mergeCity_nextId (n : String) (g : GraphState) :
    (mergeCity n g).nextId = g.nextId := by
  unfold mergeCity; split <;> rfl

theorem mergeCity_tripPlans (n : String) (g : GraphState) :
    (mergeCity n g).tripPlans = g.tripPlans := by
  unfold mergeCity; split <;> rfl

theorem mergeCity_dayPlans (n : String) (g : GraphState) :
    (mergeCity n g).dayPlans = g.dayPlans := by
  unfold mergeCity; split <;> rfl

theorem mergeCity_activities (n : String) (g : GraphState) :
    (mergeCity n g).activities = g.activities := by
  unfold mergeCity; split <;> rfl

theorem mergeCity_refInfos (n : String) (g : GraphState) :
    (mergeCity n g).refInfos = g.refInfos := by
  unfold mergeCity; split <;> rfl

theorem mergeCity_nodeEdges (n : String) (g : GraphState) :
    (mergeCity n g).nodeEdges = g.nodeEdges := by
  unfold mergeCity; split <;> rfl

theorem mergeCity_cityEdges (n : String) (g : GraphState) :
    (mergeCity n g).cityEdges = g.cityEdges := by
  unfold mergeCity; split <;> rfl

theorem mem_mergeCity_self (n : String) (g : GraphState) :
    n ∈ (mergeCity n g).cities := by
  unfold mergeCity; split
  · assumption
  · exact List.mem_append_right _ (List.mem_singleton_self n)

theorem mergeCity_cities_subset (n : String) (g : GraphState) :
    g.cities ⊆ (mergeCity n g).cities := by
  unfold mergeCity; split
  · exact fun x hx => hx
  · exact List.subset_append_left _ _

theorem mergeCity_of_mem {n : String} {g : GraphState} (h : n ∈ g.cities) :
    mergeCity n g = g := by
  unfold mergeCity; exact if_pos h

theorem mergeCity_nodup {n : String} {g : GraphState} (h : g.cities.Nodup) :
    (mergeCity n g).cities.Nodup := by
  unfold mergeCity; split
  · exact h
  · next hn =>
    refine List.Nodup.append h (List.nodup_singleton n) ?_
    intro x hx hx'
    rw [List.mem_singleton] at hx'
    exact hn (hx' ▸ hx)

theorem count_mergeCity_self {n : String} {g : GraphState} (h : g.cities.Nodup) :
    (mergeCity n g).cities.count n = 1 := by
  unfold mergeCity; split
  · next hn =>
    have h1 : 0 < g.cities.count n := List.count_pos_iff.2 hn
    have h2 : g.cities.count n ≤ 1 := List.nodup_iff_count_le_one.1 h n
    omega
  · next hn =>
    rw [List.count_append, List.count_eq_zero_of_not_mem hn]
    simp

theorem mem_mergeNEdge_self (es : List NEdge) (e : NEdge) : e ∈ mergeNEdge es e := by
  unfold mergeNEdge; split
  · assumption
  · exact List.mem_append_right _ (List.mem_singleton_self e)

theorem mem_mergeNEdge_elim {es : List NEdge} {x e : NEdge}
    (h : e ∈ mergeNEdge es x) : e ∈ es ∨ e = x := by
  unfold mergeNEdge at h; split at h
  · exact Or.inl h
  · rcases List.mem_append.1 h with h1 | h1
    · exact Or.inl h1
    · exact Or.inr (List.mem_singleton.1 h1)

theorem mem_mergeNEdge_of_mem {es : List NEdge} {x e : NEdge}
    (h : e ∈ es) : e ∈ mergeNEdge es x := by
  unfold mergeNEdge; split
  · exact h
  · exact List.mem_append_left _ h

theorem mem_mergeCEdge_self (es : List CEdge) (e : CEdge) : e ∈ mergeCEdge es e := by
  unfold mergeCEdge; split
  · assumption
  · exact List.mem_append_right _ (List.mem_singleton_self e)

theorem mem_mergeCEdge_of_mem {es : List CEdge} {x e : CEdge}
    (h : e ∈ es) : e ∈ mergeCEdge es x := by
  unfold mergeCEdge; split
  · exact h
  · exact List.mem_append_left _ h

/-! Structural lemmas about day-plan and reference processing. -/

theorem actStep_some_cities {dpId : Nat} {v : PyVal} {label : String}
    {mt : Option String} {g g' : GraphState}
    (h : actStep dpId v label mt g = some g') : g'.cities = g.cities := by
  unfold actStep at h
  rcases Option.map_eq_some'.1 h with ⟨s, _, rfl⟩
  cases s <;> rfl

theorem actStep_some_dayPlans {dpId : Nat} {v : PyVal} {label : String}
    {mt : Option String} {g g' : GraphState}
    (h : actStep dpId v label mt g = some g') : g'.dayPlans = g.dayPlans := by
  unfold actStep at h
  rcases Option.map_eq_some'.1 h with ⟨s, _, rfl⟩
  cases s <;> rfl

theorem actStep_some_tripPlans {dpId : Nat} {v : PyVal} {label : String}
    {mt : Option String} {g g' : GraphState}
    (h : actStep dpId v label mt g = some g') : g'.tripPlans = g.tripPlans := by
  unfold actStep at h
  rcases Option.map_eq_some'.1 h with ⟨s, _, rfl⟩
  cases s <;> rfl

theorem inCity_cities (dpId : Nat) (n : String) (g : GraphState) :
    (inCity dpId n g).cities = (mergeCity n g).cities := rfl

theorem createDayPlan_some_cities_subset {tpId : Nat}
    {entries : List (PyVal × PyVal)} {g g' : GraphState}
    (h : createDayPlan tpId entries g = some g') : g.cities ⊆ g'.cities := by
  unfold createDayPlan at h
  simp only [bind, Option.bind_eq_some, Option.map_eq_some'] at h
  obtain ⟨g2, ⟨s, _, hg2⟩, g3, h3, g4, h4, g5, h5, g6, h6, g7, h7, h8⟩ := h
  have hc2 : g.cities ⊆ g2.cities := by
    subst hg2
    cases s with
    | some name =>
      rw [inCity_cities]
      exact fun x hx => mergeCity_cities_subset _ _ hx
    | none => exact fun x hx => hx
  rw [actStep_some_cities h8, actStep_some_cities h7, actStep_some_cities h6,
    actStep_some_cities h5, actStep_some_cities h4, actStep_some_cities h3]
  exact hc2

theorem processDayPlans_some_cities_subset {tpId : Nat} {l : List PyVal}
    {g g' : GraphState} (h : processDayPlans tpId l g = some g') :
    g.cities ⊆ g'.cities := by
  induction l generalizing g with
  | nil =>
    simp only [processDayPlans, Option.some.injEq] at h
    subst h; exact fun x hx => hx
  | cons v rest ih =>
    cases v with
    | pdict entries =>
      simp only [processDayPlans] at h
      split at h
      · exact ih h
      · cases hc : createDayPlan tpId entries g with
        | none => rw [hc] at h; exact absurd h (by simp)
        | some g1 =>
          rw [hc] at h
          exact (createDayPlan_some_cities_subset hc).trans (ih h)
    | pstr s => exact ih h
    | pint n => exact ih h
    | pbool b => exact ih h
    | pnone => exact ih h
    | plist l2 => exact ih h

theorem createReferenceInfo_cities (tpId : Nat) (ref : List (PyVal × PyVal))
    (g : GraphState) : (createReferenceInfo tpId ref g).cities = g.cities := rfl

theorem processRefs_cities (tpId : Nat) (l : List PyVal) (g : GraphState) :
    (processRefs tpId l g).cities = g.cities := by
  induction l generalizing g with
  | nil => rfl
  | cons v rest ih =>
    cases v with
    | pdict entries =>
      simp only [processRefs]
      split
      · exact (ih _).trans rfl
      · exact ih _
    | pstr s => exact ih _
    | pint n => exact ih _
    | pbool b => exact ih _
    | pnone => exact ih _
    | plist l2 => exact ih _

theorem processRefs_tripPlans (tpId : Nat) (l : List PyVal) (g : GraphState) :
    (processRefs tpId l g).tripPlans = g.tripPlans := by
  induction l generalizing g with
  | nil => rfl
  | cons v rest ih =>
    cases v with
    | pdict entries =>
      simp only [processRefs]
      split
      · exact (ih _).trans rfl
      · exact ih _
    | pstr s => exact ih _
    | pint n => exact ih _
    | pbool b => exact ih _
    | pnone => exact ih _
    | plist l2 => exact ih _

theorem processRefs_dayPlans (tpId : Nat) (l : List PyVal) (g : GraphState) :
    (processRefs tpId l g).dayPlans = g.dayPlans := by
  induction l generalizing g with
  | nil => rfl
  | cons v rest ih =>
    cases v with
    | pdict entries =>
      simp only [processRefs]
      split
      · exact (ih _).trans rfl
      · exact ih _
    | pstr s => exact ih _
    | pint n => exact ih _
    | pbool b => exact ih _
    | pnone => exact ih _
    | plist l2 => exact ih _

theorem processRefs_cityEdges (tpId : Nat) (l : List PyVal) (g : GraphState) :
    (processRefs tpId l g).cityEdges = g.cityEdges := by
  induction l generalizing g with
  | nil => rfl
  | cons v rest ih =>
    cases v with
    | pdict entries =>
      simp only [processRefs]
      split
      · exact (ih _).trans rfl
      · exact ih _
    | pstr s => exact ih _
    | pint n => exact ih _
    | pbool b => exact ih _
    | pnone => exact ih _
    | plist l2 => exact ih _

theorem processRefs_activities (tpId : Nat) (l : List PyVal) (g : GraphState) :
    (processRefs tpId l g).activities = g.activities := by
  induction l generalizing g with
  | nil => rfl
  | cons v rest ih =>
    cases v with
    | pdict entries =>
      simp only [processRefs]
      split
      · exact (ih _).trans rfl
      · exact ih _
    | pstr s => exact ih _
    | pint n => exact ih _
    | pbool b => exact ih _
    | pnone => exact ih _
    | plist l2 => exact ih _

theorem createTripPlan_some_cities_subset
    {org dest date lc q lvl ap ri : String} {days vcn pn budget : Int}
    {g g' : GraphState}
    (h : createTripPlan org dest days vcn date pn lc budget q lvl ap ri g = some g') :
    g.cities ⊆ g'.cities := by
  unfold createTripPlan at h
  simp only [] at h
  split at h
  · simp at h
  · next g3 hdp =>
    simp only [Option.some.injEq] at h
    subst h
    rw [processRefs_cities]
    refine List.Subset.trans ?_ (processDayPlans_some_cities_subset hdp)
    split <;> exact fun x hx => hx

theorem processRecord_eq (r : RawRecord) (g : GraphState) :
    processRecord r g =
      runTx (tripTx r) (mergeCity (destD r) (mergeCity (orgD r) g)) := rfl

theorem mem_cities_processRecord (r : RawRecord) (g : GraphState) {x : String}
    (h : x ∈ (mergeCity (destD r) (mergeCity (orgD r) g)).cities) :
    x ∈ (processRecord r g).cities := by
  rw [processRecord_eq]
  unfold runTx
  cases htx : tripTx r (mergeCity (destD r) (mergeCity (orgD r) g)) with
  | none => simpa using h
  | some g' =>
    unfold tripTx at htx
    simpa using createTripPlan_some_cities_subset htx h

theorem createTripPlan_empty_ap
    {org dest date lc q lvl ap ri : String} {days vcn pn budget : Int}
    (g : GraphState) (hap : decodedList ap = [])
    (ho : org ∈ g.cities) (hd : dest ∈ g.cities) :
    ∃ g', createTripPlan org dest days vcn date pn lc budget q lvl ap ri g = some g' ∧
      g'.tripPlans = g.tripPlans ++ [⟨g.nextId, org, dest, days, vcn, date, pn, lc,
        budget, q, lvl, ap, ri⟩] ∧
      g'.dayPlans = g.dayPlans ∧
      (⟨g.nextId, "ORIGIN", org⟩ : CEdge) ∈ g'.cityEdges ∧
      (⟨g.nextId, "DESTINATION", dest⟩ : CEdge) ∈ g'.cityEdges ∧
      (decodedList ri = [] → g'.refInfos = g.refInfos) := by
  unfold createTripPlan
  simp only [hap]
  rw [if_pos (⟨ho, hd⟩ : org ∈ g.cities ∧ dest ∈ g.cities)]
  refine ⟨_, rfl, ?_, ?_, ?_, ?_, ?_⟩
  · rw [processRefs_tripPlans]
  · rw [processRefs_dayPlans]
  · rw [processRefs_cityEdges]
    exact mem_mergeCEdge_of_mem (mem_mergeCEdge_self _ _)
  · rw [processRefs_cityEdges]
    exact mem_mergeCEdge_self _ _
  · intro hri
    rw [hri]
    rfl

theorem processRecord_empty_ap (r : RawRecord) (g : GraphState)
    (hap : decodedList (apD r) = []) :
    (processRecord r g).tripPlans = g.tripPlans ++ [⟨g.nextId, orgD r, destD r,
      daysD r, vcnD r, dateD r, pnD r, lcD r, budgetD r, queryD r, levelD r,
      apD r, riD r⟩] ∧
    (processRecord r g).dayPlans = g.dayPlans ∧
    (⟨g.nextId, "ORIGIN", orgD r⟩ : CEdge) ∈ (processRecord r g).cityEdges ∧
    (⟨g.nextId, "DESTINATION", destD r⟩ : CEdge) ∈ (processRecord r g).cityEdges ∧
    (decodedList (riD r) = [] → (processRecord r g).refInfos = g.refInfos) := by
  have horg : orgD r ∈ (mergeCity (destD r) (mergeCity (orgD r) g)).cities :=
    mergeCity_cities_subset _ _ (mem_mergeCity_self _ _)
  have hdest : destD r ∈ (mergeCity (destD r) (mergeCity (orgD r) g)).cities :=
    mem_mergeCity_self _ _
  obtain ⟨g', hg', htp, hdp, ho, hd, hri⟩ :=
    @createTripPlan_empty_ap (orgD r) (destD r) (dateD r) (lcD r) (queryD r)
      (levelD r) (apD r) (riD r) (daysD r) (vcnD r) (pnD r) (budgetD r)
      (mergeCity (destD r) (mergeCity (orgD r) g)) hap horg hdest
  have hrun : processRecord r g = g' := by
    rw [processRecord_eq]
    unfold runTx tripTx
    rw [hg']
    rfl
  refine ⟨?_, ?_, ?_, ?_, ?_⟩
  · rw [hrun, htp]
    simp [mergeCity_tripPlans, mergeCity_nextId]
  · rw [hrun, hdp]
    simp [mergeCity_dayPlans]
  · rw [hrun]
    simpa [mergeCity_nextId] using ho
  · rw [hrun]
    simpa [mergeCity_nextId] using hd
  · intro h5
    rw [hrun, hri h5]
    simp [mergeCity_refInfos]

theorem storeInv_mergeCity {g : GraphState} (n : String) (h : StoreInv g) :
    StoreInv (mergeCity n g) := by
  unfold StoreInv at *
  rw [mergeCity_activities, mergeCity_nodeEdges, mergeCity_nextId]
  exact h

theorem storeInv_createRelatedNode {g : GraphState} {dpId : Nat} {v label : String}
    {mt : Option String} (hl : label ∈ actLabels) (h : StoreInv g) :
    StoreInv (createRelatedNode dpId v label mt g) := by
  obtain ⟨h1, h2, h3⟩ := h
  refine ⟨?_, ?_, ?_⟩
  · intro a ha
    rcases List.mem_append.1 ha with ha | ha
    · exact Nat.lt_succ_of_lt (h1 a ha)
    · rw [List.mem_singleton] at ha
      subst ha
      exact Nat.lt_succ_self _
  · intro e he
    rcases mem_mergeNEdge_elim he with he | he
    · exact Nat.lt_succ_of_lt (h2 e he)
    · subst he
      exact Nat.lt_succ_self _
  · intro e he a ha hda
    rcases mem_mergeNEdge_elim he with he | he
    · rcases List.mem_append.1 ha with ha | ha
      · exact h3 e he a ha hda
      · have hlt := h2 e he
        rw [List.mem_singleton] at ha
        subst ha
        simp only [hda] at hlt
        exact absurd hlt (lt_irrefl _)
    · subst he
      simp only [actLabels, List.mem_cons, List.not_mem_nil, or_false] at hl
      rcases hl with rfl | rfl | rfl | rfl
      · show "HAS_" ++ strUpper "Transportation" ∈ actRels
        decide
      · show "HAS_" ++ strUpper "Meal" ∈ actRels
        decide
      · show "HAS_" ++ strUpper "Attraction" ∈ actRels
        decide
      · show "HAS_" ++ strUpper "Accommodation" ∈ actRels
        decide

theorem storeInv_inCity {g : GraphState} (dpId : Nat) (n : String)
    (h : StoreInv g) : StoreInv (inCity dpId n g) := by
  unfold StoreInv at *
  have h1 : (inCity dpId n g).activities = g.activities := by
    unfold inCity mergeCity; split <;> rfl
  have h2 : (inCity dpId n g).nodeEdges = g.nodeEdges := by
    unfold inCity mergeCity; split <;> rfl
  have h3 : (inCity dpId n g).nextId = g.nextId := by
    unfold inCity mergeCity; split <;> rfl
  rw [h1, h2, h3]
  exact h

theorem storeInv_applyAct {g : GraphState} {dpId : Nat} {v : Option String}
    {label : String} {mt : Option String} (hl : label ∈ actLabels)
    (h : StoreInv g) : StoreInv (applyAct dpId v label mt g) := by
  cases v with
  | some s => exact storeInv_createRelatedNode hl h
  | none => exact h

theorem storeInv_actStep {g g' : GraphState} {dpId : Nat} {v : PyVal}
    {label : String} {mt : Option String} (hl : label ∈ actLabels)
    (hs : actStep dpId v label mt g = some g') (h : StoreInv g) : StoreInv g' := by
  unfold actStep at hs
  rcases Option.map_eq_some'.1 hs with ⟨s, _, rfl⟩
  exact storeInv_applyAct hl h

theorem storeInv_dayPlanBase {g : GraphState} (tpId : Nat) (d : DayPlanNode)
    (h : StoreInv g) :
    StoreInv { g with
      nextId := g.nextId + 1
      dayPlans := g.dayPlans ++ [d]
      nodeEdges := mergeNEdge g.nodeEdges ⟨tpId, "HAS_DAY_PLAN", g.nextId⟩ } := by
  obtain ⟨h1, h2, h3⟩ := h
  refine ⟨?_, ?_, ?_⟩
  · intro a ha
    exact Nat.lt_succ_of_lt (h1 a ha)
  · intro e he
    rcases mem_mergeNEdge_elim he with he | he
    · exact Nat.lt_succ_of_lt (h2 e he)
    · subst he
      exact Nat.lt_succ_self _
  · intro e he a ha hda
    rcases mem_mergeNEdge_elim he with he | he
    · exact h3 e he a ha hda
    · subst he
      have hlt := h1 a ha
      simp only at hda
      rw [hda] at hlt
      exact absurd hlt (lt_irrefl _)

theorem storeInv_createDayPlan {g g' : GraphState} {tpId : Nat}
    {entries : List (PyVal × PyVal)}
    (hs : createDayPlan tpId entries g = some g') (h : StoreInv g) : StoreInv g' := by
  unfold createDayPlan at hs
  simp only [bind, Option.bind_eq_some, Option.map_eq_some'] at hs
  obtain ⟨g2, ⟨s, _, hg2⟩, g3, h3, g4, h4, g5, h5, g6, h6, g7, h7, h8⟩ := hs
  have hbase := storeInv_dayPlanBase tpId
    ⟨g.nextId, dictGetStr entries "days" .pnone,
      dictGetStr entries "current_city" (.pstr "")⟩ h
  have hg2' : StoreInv g2 := by
    subst hg2
    cases s with
    | some name => exact storeInv_inCity _ _ hbase
    | none => exact hbase
  have i3 := storeInv_actStep (by decide) h3 hg2'
  have i4 := storeInv_actStep (by decide) h4 i3
  have i5 := storeInv_actStep (by decide) h5 i4
  have i6 := storeInv_actStep (by decide) h6 i5
  have i7 := storeInv_actStep (by decide) h7 i6
  exact storeInv_actStep (by decide) h8 i7

theorem storeInv_processDayPlans {tpId : Nat} {l : List PyVal} {g g' : GraphState}
    (hs : processDayPlans tpId l g = some g') (h : StoreInv g) : StoreInv g' := by
  induction l generalizing g with
  | nil =>
    simp only [processDayPlans, Option.some.injEq] at hs
    subst hs; exact h
  | cons v rest ih =>
    cases v with
    | pdict entries =>
      simp only [processDayPlans] at hs
      split at hs
      · exact ih hs h
      · cases hc : createDayPlan tpId entries g with
        | none => rw [hc] at hs; exact absurd hs (by simp)
        | some g1 =>
          rw [hc] at hs
          exact ih hs (storeInv_createDayPlan hc h)
    | pstr s => exact ih hs h
    | pint n => exact ih hs h
    | pbool b => exact ih hs h
    | pnone => exact ih hs h
    | plist l2 => exact ih hs h

theorem storeInv_createReferenceInfo {g : GraphState} (tpId : Nat)
    (ref : List (PyVal × PyVal)) (h : StoreInv g) :
    StoreInv (createReferenceInfo tpId ref g) := by
  obtain ⟨h1, h2, h3⟩ := h
  refine ⟨?_, ?_, ?_⟩
  · intro a ha
    exact Nat.lt_succ_of_lt (h1 a ha)
  · intro e he
    rcases mem_mergeNEdge_elim he with he | he
    · exact Nat.lt_succ_of_lt (h2 e he)
    · subst he
      exact Nat.lt_succ_self _
  · intro e he a ha hda
    rcases mem_mergeNEdge_elim he with he | he
    · exact h3 e he a ha hda
    · subst he
      have hlt := h1 a ha
      simp only at hda
      rw [hda] at hlt
      exact absurd hlt (lt_irrefl _)

theorem storeInv_processRefs (tpId : Nat) (l : List PyVal) {g : GraphState}
    (h : StoreInv g) : StoreInv (processRefs tpId l g) := by
  induction l generalizing g with
  | nil => exact h
  | cons v rest ih =>
    cases v with
    | pdict entries =>
      simp only [processRefs]
      split
      · exact ih (storeInv_createReferenceInfo tpId entries h)
      · exact ih h
    | pstr s => exact ih h
    | pint n => exact ih h
    | pbool b => exact ih h
    | pnone => exact ih h
    | plist l2 => exact ih h

theorem storeInv_createTripPlan
    {org dest date lc q lvl ap ri : String} {days vcn pn budget : Int}
    {g g' : GraphState}
    (hs : createTripPlan org dest days vcn date pn lc budget q lvl ap ri g = some g')
    (h : StoreInv g) : StoreInv g' := by
  obtain ⟨h1, h2, h3⟩ := h
  have hg2 : StoreInv
      (if org ∈ g.cities ∧ dest ∈ g.cities then
        { g with
          nextId := g.nextId + 1
          tripPlans := g.tripPlans ++ [⟨g.nextId, org, dest, days, vcn,
            date, pn, lc, budget, q, lvl, ap, ri⟩]
          cityEdges :=
            (mergeCEdge (mergeCEdge g.cityEdges ⟨g.nextId, "ORIGIN", org⟩)
              ⟨g.nextId, "DESTINATION", dest⟩) }
      else
        { g with
          nextId := g.nextId + 1
          tripPlans := g.tripPlans ++ [⟨g.nextId, org, dest, days, vcn,
            date, pn, lc, budget, q, lvl, ap, ri⟩] }) := by
    split <;>
      exact ⟨fun a ha => Nat.lt_succ_of_lt (h1 a ha),
        fun e he => Nat.lt_succ_of_lt (h2 e he), h3⟩
  unfold createTripPlan at hs
  simp only [] at hs
  split at hs
  · exact absurd hs (by simp)
  · next g3 hdp =>
    simp only [Option.some.injEq] at hs
    subst hs
    exact storeInv_processRefs _ _ (storeInv_processDayPlans hdp hg2)

theorem storeInv_processRecord (r : RawRecord) {g : GraphState}
    (h : StoreInv g) : StoreInv (processRecord r g) := by
  rw [processRecord_eq]
  have hm : StoreInv (mergeCity (destD r) (mergeCity (orgD r) g)) :=
    storeInv_mergeCity _ (storeInv_mergeCity _ h)
  unfold runTx
  cases htx : tripTx r (mergeCity (destD r) (mergeCity (orgD r) g)) with
  | none => exact hm
  | some g' =>
    unfold tripTx at htx
    exact storeInv_createTripPlan htx hm

/-! Lemmas characterising activity-field handling. -/

theorem presentStr_pstr (s : String) :
    presentStr (.pstr s) = some (if codePresent s then some s else none) := by
  unfold presentStr PyVal.truthy codePresent
  by_cases h1 : s.data.isEmpty <;> by_cases h2 : pstrip s = "-" <;>
    simp [h1, h2]

theorem actFacts_createRelatedNode (dpId : Nat) (v label : String)
    (mt : Option String) (g : GraphState) :
    actFacts (createRelatedNode dpId v label mt g) =
      actFacts g ++ [(label, v, mt)] := by
  unfold actFacts createRelatedNode
  simp

theorem actStep_pstr (dpId : Nat) (s label : String) (mt : Option String)
    (g : GraphState) :
    actStep dpId (.pstr s) label mt g =
      some (if codePresent s then createRelatedNode dpId s label mt g else g) := by
  unfold actStep
  rw [presentStr_pstr]
  cases hc : codePresent s <;> simp [applyAct]

theorem actFacts_actIf (c : Bool) (dpId : Nat) (s lbl : String)
    (mt : Option String) (x : GraphState) :
    actFacts (if c then createRelatedNode dpId s lbl mt x else x) =
      actFacts x ++ actOpt c lbl s mt := by
  cases c <;> simp [actOpt, actFacts_createRelatedNode]

theorem dictGetStr_actDict_days (t b l d a ac : String) (dflt : PyVal) :
    dictGetStr (actDict t b l d a ac) "days" dflt = dflt := rfl

theorem dictGetStr_actDict_cc (t b l d a ac : String) (dflt : PyVal) :
    dictGetStr (actDict t b l d a ac) "current_city" dflt = dflt := rfl

theorem dictGetStr_actDict_t (t b l d a ac : String) (dflt : PyVal) :
    dictGetStr (actDict t b l d a ac) "transportation" dflt = .pstr t := rfl

theorem dictGetStr_actDict_b (t b l d a ac : String) (dflt : PyVal) :
    dictGetStr (actDict t b l d a ac) "breakfast" dflt = .pstr b := rfl

theorem dictGetStr_actDict_l (t b l d a ac : String) (dflt : PyVal) :
    dictGetStr (actDict t b l d a ac) "lunch" dflt = .pstr l := rfl

theorem dictGetStr_actDict_d (t b l d a ac : String) (dflt : PyVal) :
    dictGetStr (actDict t b l d a ac) "dinner" dflt = .pstr d := rfl

theorem dictGetStr_actDict_a (t b l d a ac : String) (dflt : PyVal) :
    dictGetStr (actDict t b l d a ac) "attraction" dflt = .pstr a := rfl

theorem dictGetStr_actDict_ac (t b l d a ac : String) (dflt : PyVal) :
    dictGetStr (actDict t b l d a ac) "accommodation" dflt = .pstr ac := rfl

theorem createDayPlan_actDict (g : GraphState) (tpId : Nat)
    (t b l d a ac : String) :
    Option.map actFacts (createDayPlan tpId (actDict t b l d a ac) g) =
      some (actFacts g ++
        (actOpt (codePresent t) "Transportation" t none ++
          (actOpt (codePresent b) "Meal" b (some "Breakfast") ++
            (actOpt (codePresent l) "Meal" l (some "Lunch") ++
              (actOpt (codePresent d) "Meal" d (some "Dinner") ++
                (actOpt (codePresent a) "Attraction" a none ++
                  actOpt (codePresent ac) "Accommodation" ac none)))))) := by
  unfold createDayPlan
  rw [dictGetStr_actDict_days, dictGetStr_actDict_cc, dictGetStr_actDict_t,
    dictGetStr_actDict_b, dictGetStr_actDict_l, dictGetStr_actDict_d,
    dictGetStr_actDict_a, dictGetStr_actDict_ac]
  simp only []
  rw [show presentStr (.pstr "") = some none from rfl]
  simp only [actStep_pstr, Option.map_some', Option.some_bind,
    Option.bind_eq_bind]
  simp only [actFacts_actIf]
  simp [actFacts, List.append_assoc]

/-! Claim theorems. -/

/-- C1 counterexample: ingesting recFail forces the trip-plan transaction to
fail inside step 4 (a truthy integer reaches .strip()), after the two city
merges committed.  The claim says the graph state is then unchanged — no
node created in the attempt, neither TripPlan nor City, stays visible — but
the City nodes Paris and Rome remain visible while no TripPlan exists. -/
theorem atomic_ingest_cex :
    tripTx recFail (mergeCity "Rome" (mergeCity "Paris" emptyState)) = none ∧
    (processRecord recFail emptyState).cities = ["Paris", "Rome"] ∧
    (processRecord recFail emptyState).tripPlans = [] := by
  exact ⟨rfl, rfl, rfl⟩

/-- C1 amended: process_record issues three separate transactions, so the
two City merges commit on their own and survive a later failure; only the
trip-plan transaction (steps 2-5) is atomic: when it fails, the visible
state is exactly the prior state with the two city names merged — no
TripPlan, DayPlan, ActivityNode or ReferenceInfo from the attempt is
visible. -/
theorem trip_tx_failure_rolls_back_trip_only (r : RawRecord) (g : GraphState)
    (h : tripTx r (mergeCity (destD r) (mergeCity (orgD r) g)) = none) :
    processRecord r g = mergeCity (destD r) (mergeCity (orgD r) g) := by
  rw [processRecord_eq]
  unfold runTx
  rw [h]
  rfl

theorem trip_tx_failure_rolls_back_trip_only_witness :
    tripTx recFail (mergeCity "Rome" (mergeCity "Paris" emptyState)) = none ∧
    processRecord recFail emptyState =
      mergeCity "Rome" (mergeCity "Paris" emptyState) := by
  constructor
  · rfl
  · exact trip_tx_failure_rolls_back_trip_only recFail emptyState (by rfl)

/-- C2: starting from a graph whose City names are duplicate-free, merging
the same name s any N ≥ 1 times leaves exactly one City node whose name
equals s (exact, case-sensitive comparison): the merge is idempotent and
never creates duplicates. -/
theorem city_merge_idempotent_count (g : GraphState) (s : String) (n : Nat)
    (hg : g.cities.Nodup) (hn : 1 ≤ n) :
    (((mergeCity s)^[n]) g).cities.count s = 1 := by
  have hnodup : ∀ m : Nat, (((mergeCity s)^[m]) g).cities.Nodup := by
    intro m
    induction m with
    | zero => exact hg
    | succ k ih =>
      rw [Function.iterate_succ_apply']
      exact mergeCity_nodup ih
  obtain ⟨m, rfl⟩ : ∃ m, n = m + 1 := ⟨n - 1, (Nat.succ_pred_eq_of_pos hn).symm⟩
  rw [Function.iterate_succ_apply']
  exact count_mergeCity_self (hnodup m)

theorem city_merge_idempotent_count_witness :
    emptyState.cities.Nodup ∧ 1 ≤ 3 ∧
    (((mergeCity "Rome")^[3]) emptyState).cities.count "Rome" = 1 :=
  ⟨by decide, by decide,
    city_merge_idempotent_count emptyState "Rome" 3 (by decide) (by decide)⟩

/-- C3 counterexample: a transportation value of a single space is empty
after trimming, so by the claim no ActivityNode may be produced, yet the
code's guard (truthiness plus stripped-not-dash) passes and one
Transportation node carrying the raw value is created. -/
theorem sentinel_whitespace_cex :
    Option.map actFacts
        (createDayPlan 0 (actDict " " "" "" "" "" "") emptyState) =
      some [("Transportation", " ", (none : Option String))] ∧
    specPresentTrimmed " " = false := by
  exact ⟨rfl, rfl⟩

/-- C3 amended: each of the six activity fields produces exactly one
ActivityNode of the matching kind (with the matching meal slot) if and only
if the raw value is a non-empty string whose stripped form is not a single
dash (codePresent); "-" and "" never produce a node, "somewhere" produces
exactly one node with that value, and a whitespace-only value does produce a
node carrying the raw value. -/
theorem activity_node_iff_code_guard (g : GraphState) (tpId : Nat)
    (t b l d a ac : String) :
    Option.map actFacts (createDayPlan tpId (actDict t b l d a ac) g) =
      some (actFacts g ++
        (actOpt (codePresent t) "Transportation" t none ++
          (actOpt (codePresent b) "Meal" b (some "Breakfast") ++
            (actOpt (codePresent l) "Meal" l (some "Lunch") ++
              (actOpt (codePresent d) "Meal" d (some "Dinner") ++
                (actOpt (codePresent a) "Attraction" a none ++
                  actOpt (codePresent ac) "Accommodation" ac none)))))) :=
  createDayPlan_actDict g tpId t b l d a ac

/-- C4 counterexample: a record missing org and dest is ingested with the
literal City name "Unknown" (capital U); no City node named "unknown"
exists, contradicting the claimed lowercase default. -/
theorem missing_org_default_cex :
    "Unknown" ∈ (processRecord recNone emptyState).cities ∧
    "unknown" ∉ (processRecord recNone emptyState).cities := by
  exact ⟨by decide, by decide⟩

/-- C4 amended: missing fields resolve to the code's defaults — "Unknown"
(capitalised) for org and dest, 0 for the numeric fields, "[]" for date and
the two payloads, "\x7b\x7d" for local_constraint, "" for query and
"unknown" for level — and a record missing org is ingested with the literal
City name "Unknown", merged like any other name. -/
theorem missing_fields_resolve_to_code_defaults (r : RawRecord) (g : GraphState)
    (h : r.org = none) :
    orgD r = "Unknown" ∧
    "Unknown" ∈ (processRecord r g).cities ∧
    (processRecord recNone g).tripPlans = g.tripPlans ++
      [⟨g.nextId, "Unknown", "Unknown", 0, 0, "[]", 0, "\x7b\x7d", 0, "",
        "unknown", "[]", "[]"⟩] := by
  have h0 : orgD r = "Unknown" := by
    unfold orgD
    rw [h]
    rfl
  refine ⟨h0, ?_, ?_⟩
  · apply mem_cities_processRecord
    apply mergeCity_cities_subset
    rw [← h0]
    exact mem_mergeCity_self _ _
  · obtain ⟨htp, _, _, _, _⟩ := processRecord_empty_ap recNone g (by rfl)
    rw [htp]
    rfl

theorem missing_fields_resolve_to_code_defaults_witness :
    recNone.org = none ∧
    (orgD recNone = "Unknown" ∧
      "Unknown" ∈ (processRecord recNone emptyState).cities ∧
      (processRecord recNone emptyState).tripPlans = emptyState.tripPlans ++
        [⟨emptyState.nextId, "Unknown", "Unknown", 0, 0, "[]", 0, "\x7b\x7d", 0,
          "", "unknown", "[]", "[]"⟩]) :=
  ⟨rfl, missing_fields_resolve_to_code_defaults recNone emptyState rfl⟩

/-- C5: the combined lookup compares the stored org and dest attributes and
the arguments through toLower, so its result is invariant under changing the
letter case of either argument: any two argument pairs that agree up to case
return the same list of trip summaries, for every graph state. -/
theorem lookup_case_insensitive (g : GraphState) (o1 o2 d1 d2 : String)
    (ho : strLower o1 = strLower o2) (hd : strLower d1 = strLower d2) :
    fetchTripPlans g o1 d1 = fetchTripPlans g o2 d2 := by
  unfold fetchTripPlans
  simp only [ho, hd]

theorem lookup_case_insensitive_witness :
    strLower "new york" = strLower "New York" ∧
    strLower "CHICAGO" = strLower "Chicago" ∧
    fetchTripPlans gNY "new york" "CHICAGO" =
      fetchTripPlans gNY "New York" "Chicago" :=
  ⟨by decide, by decide,
    lookup_case_insensitive gNY "new york" "New York" "CHICAGO" "Chicago"
      (by decide) (by decide)⟩

/-- C6: a record whose annotated_plan field is not valid literal text still
produces a TripPlan node carrying all its attributes, with its ORIGIN and
DESTINATION relationships, and zero new DayPlan children — the record is not
dropped. -/
theorem malformed_plan_still_creates_trip (r : RawRecord) (g : GraphState)
    (h : literalEval (apD r) = none) :
    (processRecord r g).tripPlans = g.tripPlans ++ [⟨g.nextId, orgD r, destD r,
      daysD r, vcnD r, dateD r, pnD r, lcD r, budgetD r, queryD r, levelD r,
      apD r, riD r⟩] ∧
    (processRecord r g).dayPlans = g.dayPlans ∧
    (⟨g.nextId, "ORIGIN", orgD r⟩ : CEdge) ∈ (processRecord r g).cityEdges ∧
    (⟨g.nextId, "DESTINATION", destD r⟩ : CEdge) ∈ (processRecord r g).cityEdges := by
  have hap : decodedList (apD r) = [] := by
    unfold decodedList
    rw [h]
  obtain ⟨h1, h2, h3, h4, _⟩ := processRecord_empty_ap r g hap
  exact ⟨h1, h2, h3, h4⟩

theorem malformed_plan_still_creates_trip_witness :
    literalEval (apD recPlanOops) = none ∧
    ((processRecord recPlanOops emptyState).tripPlans =
        emptyState.tripPlans ++ [⟨emptyState.nextId, orgD recPlanOops,
          destD recPlanOops, daysD recPlanOops, vcnD recPlanOops,
          dateD recPlanOops, pnD recPlanOops, lcD recPlanOops,
          budgetD recPlanOops, queryD recPlanOops, levelD recPlanOops,
          apD recPlanOops, riD recPlanOops⟩] ∧
      (processRecord recPlanOops emptyState).dayPlans = emptyState.dayPlans ∧
      (⟨emptyState.nextId, "ORIGIN", orgD recPlanOops⟩ : CEdge) ∈
        (processRecord recPlanOops emptyState).cityEdges ∧
      (⟨emptyState.nextId, "DESTINATION", destD recPlanOops⟩ : CEdge) ∈
        (processRecord recPlanOops emptyState).cityEdges) :=
  ⟨rfl, malformed_plan_still_creates_trip recPlanOops emptyState rfl⟩

/-- C7: under the store invariant, every relationship that points at an
ActivityNode after ingesting any record carries a type from the fixed closed
enumeration HAS_TRANSPORTATION / HAS_MEAL / HAS_ATTRACTION /
HAS_ACCOMMODATION: relationship types are interpolated only from the four
call-site labels, never from record field content. -/
theorem activity_rel_types_closed (r : RawRecord) (g : GraphState)
    (hInv : StoreInv g) (e : NEdge) (a : ActivityNode)
    (he : e ∈ (processRecord r g).nodeEdges)
    (ha : a ∈ (processRecord r g).activities)
    (hd : e.dst = a.nid) : e.rel ∈ actRels := by
  obtain ⟨_, _, h3⟩ := storeInv_processRecord r hInv
  exact h3 e he a ha hd

theorem activity_rel_types_closed_witness :
    StoreInv emptyState ∧
    (⟨1, "HAS_MEAL", 2⟩ : NEdge) ∈ (processRecord recCafe emptyState).nodeEdges ∧
    (⟨2, "Meal", "Cafe", some "Breakfast"⟩ : ActivityNode) ∈
      (processRecord recCafe emptyState).activities ∧
    (⟨1, "HAS_MEAL", 2⟩ : NEdge).rel ∈ actRels := by
  have hInv : StoreInv emptyState := by
    refine ⟨?_, ?_, ?_⟩ <;> intro x hx <;> exact absurd hx (List.not_mem_nil x)
  have he : (⟨1, "HAS_MEAL", 2⟩ : NEdge) ∈
      (processRecord recCafe emptyState).nodeEdges := by decide
  have ha : (⟨2, "Meal", "Cafe", some "Breakfast"⟩ : ActivityNode) ∈
      (processRecord recCafe emptyState).activities := by decide
  exact ⟨hInv, he, ha,
    activity_rel_types_closed recCafe emptyState hInv _ _ he ha rfl⟩

/-- C8: activity nodes are never deduplicated — creating two day plans whose
breakfast field carries the same present value adds two fresh Meal nodes
with that value and slot, so the number of identical (label, value, slot)
activity nodes grows by exactly one per present field occurrence. -/
theorem identical_activities_not_deduplicated (g : GraphState)
    (dp1 dp2 : Nat) (v : String) (hv : codePresent v = true) :
    Option.map (fun g2 => actCount g2 "Meal" v (some "Breakfast"))
      ((createDayPlan dp1 (actDict "" v "" "" "" "") g).bind
        (createDayPlan dp2 (actDict "" v "" "" "" ""))) =
      some (actCount g "Meal" v (some "Breakfast") + 2) := by
  have h1 := createDayPlan_actDict g dp1 "" v "" "" "" ""
  have h2e : codePresent "" = false := by decide
  rw [h2e, hv] at h1
  simp only [actOpt, if_true, if_false, List.append_nil, List.nil_append] at h1
  rcases Option.map_eq_some'.1 h1 with ⟨g1, hg1, hfacts1⟩
  have h2 := createDayPlan_actDict g1 dp2 "" v "" "" "" ""
  rw [h2e, hv] at h2
  simp only [actOpt, if_true, if_false, List.append_nil, List.nil_append] at h2
  rcases Option.map_eq_some'.1 h2 with ⟨g2, hg2, hfacts2⟩
  rw [hg1]
  simp only [Option.some_bind]
  rw [hg2]
  simp only [Option.map_some', Option.some.injEq]
  unfold actCount
  rw [hfacts2, hfacts1]
  simp [List.count_append]

theorem identical_activities_not_deduplicated_witness :
    codePresent "Tavern" = true ∧
    Option.map (fun g2 => actCount g2 "Meal" "Tavern" (some "Breakfast"))
      ((createDayPlan 0 (actDict "" "Tavern" "" "" "" "") emptyState).bind
        (createDayPlan 9 (actDict "" "Tavern" "" "" "" ""))) =
      some (actCount emptyState "Meal" "Tavern" (some "Breakfast") + 2) :=
  ⟨by decide,
    identical_activities_not_deduplicated emptyState 0 9 "Tavern" (by decide)⟩

/-- C9: when the two payloads decode successfully but to non-list values,
ingestion creates zero DayPlan and zero ReferenceInfo children — exactly as
on a decode failure — while the TripPlan node and its ORIGIN/DESTINATION
relationships are still created. -/
theorem nonlist_payload_creates_no_children (r : RawRecord) (g : GraphState)
    (v w : PyVal) (hv : literalEval (apD r) = some v) (hvl : v.isList = false)
    (hw : literalEval (riD r) = some w) (hwl : w.isList = false) :
    (processRecord r g).tripPlans = g.tripPlans ++ [⟨g.nextId, orgD r, destD r,
      daysD r, vcnD r, dateD r, pnD r, lcD r, budgetD r, queryD r, levelD r,
      apD r, riD r⟩] ∧
    (processRecord r g).dayPlans = g.dayPlans ∧
    (processRecord r g).refInfos = g.refInfos ∧
    (⟨g.nextId, "ORIGIN", orgD r⟩ : CEdge) ∈ (processRecord r g).cityEdges ∧
    (⟨g.nextId, "DESTINATION", destD r⟩ : CEdge) ∈ (processRecord r g).cityEdges := by
  have hap : decodedList (apD r) = [] := by
    unfold decodedList
    rw [hv]
    cases v <;> first | rfl | simp [PyVal.isList] at hvl
  have hri : decodedList (riD r) = [] := by
    unfold decodedList
    rw [hw]
    cases w <;> first | rfl | simp [PyVal.isList] at hwl
  obtain ⟨h1, h2, h3, h4, h5⟩ := processRecord_empty_ap r g hap
  exact ⟨h1, h2, h5 hri, h3, h4⟩

theorem nonlist_payload_creates_no_children_witness :
    literalEval (apD recNonList) = some (.pint 7) ∧
    (PyVal.pint 7).isList = false ∧
    literalEval (riD recNonList) = some (.pdict []) ∧
    (PyVal.pdict []).isList = false ∧
    ((processRecord recNonList emptyState).tripPlans =
        emptyState.tripPlans ++ [⟨emptyState.nextId, orgD recNonList,
          destD recNonList, daysD recNonList, vcnD recNonList,
          dateD recNonList, pnD recNonList, lcD recNonList,
          budgetD recNonList, queryD recNonList, levelD recNonList,
          apD recNonList, riD recNonList⟩] ∧
      (processRecord recNonList emptyState).dayPlans = emptyState.dayPlans ∧
      (processRecord recNonList emptyState).refInfos = emptyState.refInfos ∧
      (⟨emptyState.nextId, "ORIGIN", orgD recNonList⟩ : CEdge) ∈
        (processRecord recNonList emptyState).cityEdges ∧
      (⟨emptyState.nextId, "DESTINATION", destD recNonList⟩ : CEdge) ∈
        (processRecord recNonList emptyState).cityEdges) :=
  ⟨rfl, rfl, rfl, rfl,
    nonlist_payload_creates_no_children recNonList emptyState (.pint 7)
      (.pdict []) rfl rfl rfl rfl⟩

/-- C10: every trip summary returned by the combined origin/destination
lookup is also returned by the origin-only lookup, for every graph state and
arguments: broadening to the origin-only lookup never loses a match. -/
theorem origin_lookup_contains_combined (g : GraphState) (o d : String)
    (t : TripSummary) (h : t ∈ fetchTripPlans g o d) :
    t ∈ fetchTripPlansFromOrigin g o := by
  unfold fetchTripPlans at h
  unfold fetchTripPlansFromOrigin
  rcases List.mem_map.1 h with ⟨x, hx, rfl⟩
  rcases List.mem_filter.1 hx with ⟨hmem, hcond⟩
  refine List.mem_map.2 ⟨x, List.mem_filter.2 ⟨hmem, ?_⟩, rfl⟩
  simp only [Bool.and_eq_true] at hcond
  exact hcond.1

theorem origin_lookup_contains_combined_witness :
    (⟨"New York", "Chicago", 3, "[]", 0, 0, "", "unknown", "[]", "[]"⟩ :
        TripSummary) ∈ fetchTripPlans gNY "new york" "CHICAGO" ∧
    (⟨"New York", "Chicago", 3, "[]", 0, 0, "", "unknown", "[]", "[]"⟩ :
        TripSummary) ∈ fetchTripPlansFromOrigin gNY "new york" :=
  ⟨by decide,
    origin_lookup_contains_combined gNY "new york" "CHICAGO" _ (by decide)⟩
